import Mathlib

/-!
Shallow embedding of `http/http.go` from the raft HTTP transport package
(`package rafthttp`): peer identity resolution, the shared `rpc` primitive,
the outbound `AppendEntries` / `RequestVote` / `Command` calls, and the four
inbound HTTP handlers.

Modelling conventions:
- Go `error` values are `Except Unit _` (only presence/absence matters, except
  for `rpc`, whose distinguishable error kinds are `RpcError`).
- HTTP bodies are `Body`: either a well-formed JSON document (`Body.json`,
  carried as a JSON tree) or a byte sequence that is not a valid JSON document
  (`Body.raw`).  Bytes are `List Nat`.
- The network is an oracle `Net` giving the outcome of each `http.Get` /
  `http.Post` by URL string; this models Go's blocking HTTP calls.
- `json.Decoder.Decode` into a target is modelled in place, following Go
  `encoding/json` semantics: a decoder takes the body and the target's
  current value and returns the target's final value together with a success
  flag.  For struct targets unmarshalling is best-effort: object fields are
  processed in document order, a type-mismatched field is skipped (the
  target keeps that field's previous value) and the error is reported only
  after the remaining fields have been filled, so a failed decode can leave
  a partially-filled target.  A JSON `null` (top-level or as a field value)
  is a no-op without error; a non-object document is a type error and a
  non-JSON body a syntax error, both leaving the target unchanged.
  Decoding into a `*bytes.Buffer` target (`decodeIntoBuffer`) never writes
  into the buffer: `bytes.Buffer` has only unexported fields and implements
  no unmarshaler interface; it succeeds only when the body is a JSON object
  or `null`.
- `http.Error(w, msg, code)` is modelled as a response with that status code
  and `msg` as body.
-/

namespace RaftHttp

/-- A JSON document, the target of Go's `encoding/json` in this transport. -/
inductive Json where
  | null
  | bool (b : Bool)
  | num (n : Nat)
  | str (s : String)
  | arr (elems : List Json)
  | obj (fields : List (String × Json))

/-- First value bound to `key` in a JSON object's field list. -/
def lookupField : List (String × Json) → String → Option Json
  | [], _ => none
  | (k, v) :: rest, key => if k = key then some v else lookupField rest key

/-- Read a JSON value as a number (Go: unmarshal into an unsigned integer). -/
def Json.asNat : Json → Option Nat
  | .num n => some n
  | _ => none

/-- Read a JSON value as a boolean. -/
def Json.asBool : Json → Option Bool
  | .bool b => some b
  | _ => none

/-!
## Modelled raft message types

The Go file imports package `raft` (the parent package of this repository,
not under `src/`) for the types `raft.AppendEntries`, `raft.RequestVote`,
`raft.AppendEntriesResponse`, `raft.RequestVoteResponse`.  They are modelled
from the spec.
-/

/-- Modelled from the spec: a replicated log entry carried inside an
append-entries message; the spec treats entry fields as the engine's
contract, so we model an index, a term, and an opaque command byte
sequence. -/
structure LogEntry where
  index : Nat
  term : Nat
  command : List Nat
deriving DecidableEq

/-- Modelled from the spec: the `AppendEntriesMessage` structured payload
(spec §3, §8); the `term` field follows the spec's concrete scenario, the
remaining fields model the engine-owned replication bookkeeping. -/
structure AppendEntries where
  term : Nat
  prevLogIndex : Nat
  prevLogTerm : Nat
  entries : List LogEntry
  commitIndex : Nat
deriving DecidableEq

/-- Modelled from the spec: the `RequestVoteMessage` structured payload
(spec §3); fields model the engine-owned election bookkeeping. -/
structure RequestVote where
  term : Nat
  candidateId : Nat
  lastLogIndex : Nat
  lastLogTerm : Nat
deriving DecidableEq

/-- Modelled from the spec: the `AppendEntriesReply` payload; `term` and
`success` follow the spec's concrete scenario `(term=5, success=true)`. -/
structure AppendEntriesResponse where
  term : Nat
  success : Bool
deriving DecidableEq

/-- The Go zero value of `raft.AppendEntriesResponse`: all fields default. -/
def AppendEntriesResponse.zero : AppendEntriesResponse := ⟨0, false⟩

/-- Modelled from the spec: the `RequestVoteReply` payload. -/
structure RequestVoteResponse where
  term : Nat
  voteGranted : Bool
deriving DecidableEq

/-- The Go zero value of `raft.RequestVoteResponse`: all fields default. -/
def RequestVoteResponse.zero : RequestVoteResponse := ⟨0, false⟩

/-!
## Wire codec

Modelled from the spec (§4.1): Go's `encoding/json` on the modelled message
types, at the level of JSON documents.  Encoding a struct of integers,
booleans and byte slices never fails in Go; decoding looks fields up by name.
-/

/-- Encode a byte sequence as a JSON array of numbers (model of the
engine-owned entry command payload). -/
def encodeBytes (bs : List Nat) : Json := .arr (bs.map Json.num)

/-- Decode each element of a JSON array as a number. -/
def decodeNatList : List Json → Option (List Nat)
  | [] => some []
  | j :: rest => do
      let n ← j.asNat
      let ns ← decodeNatList rest
      pure (n :: ns)

/-- Decode a JSON array of numbers back into a byte sequence. -/
def decodeBytes : Json → Option (List Nat)
  | .arr elems => decodeNatList elems
  | _ => none

def encodeLogEntry (e : LogEntry) : Json :=
  .obj [("index", .num e.index), ("term", .num e.term),
        ("command", encodeBytes e.command)]

def decodeLogEntry : Json → Option LogEntry
  | .obj fields => do
      let index ← (lookupField fields "index").bind Json.asNat
      let term ← (lookupField fields "term").bind Json.asNat
      let command ← (lookupField fields "command").bind decodeBytes
      pure ⟨index, term, command⟩
  | _ => none

/-- Decode each element of a JSON array as a log entry. -/
def decodeEntryList : List Json → Option (List LogEntry)
  | [] => some []
  | j :: rest => do
      let e ← decodeLogEntry j
      let es ← decodeEntryList rest
      pure (e :: es)

/-- Decode a JSON array back into a list of log entries. -/
def decodeEntries : Json → Option (List LogEntry)
  | .arr elems => decodeEntryList elems
  | _ => none

def encodeAE (m : AppendEntries) : Json :=
  .obj [("term", .num m.term),
        ("prevLogIndex", .num m.prevLogIndex),
        ("prevLogTerm", .num m.prevLogTerm),
        ("entries", .arr (m.entries.map encodeLogEntry)),
        ("commitIndex", .num m.commitIndex)]

def decodeAE : Json → Option AppendEntries
  | .obj fields => do
      let term ← (lookupField fields "term").bind Json.asNat
      let prevLogIndex ← (lookupField fields "prevLogIndex").bind Json.asNat
      let prevLogTerm ← (lookupField fields "prevLogTerm").bind Json.asNat
      let entriesJson ← lookupField fields "entries"
      let entries ← decodeEntries entriesJson
      let commitIndex ← (lookupField fields "commitIndex").bind Json.asNat
      pure ⟨term, prevLogIndex, prevLogTerm, entries, commitIndex⟩
  | _ => none

def encodeRV (m : RequestVote) : Json :=
  .obj [("term", .num m.term),
        ("candidateId", .num m.candidateId),
        ("lastLogIndex", .num m.lastLogIndex),
        ("lastLogTerm", .num m.lastLogTerm)]

def decodeRV : Json → Option RequestVote
  | .obj fields => do
      let term ← (lookupField fields "term").bind Json.asNat
      let candidateId ← (lookupField fields "candidateId").bind Json.asNat
      let lastLogIndex ← (lookupField fields "lastLogIndex").bind Json.asNat
      let lastLogTerm ← (lookupField fields "lastLogTerm").bind Json.asNat
      pure ⟨term, candidateId, lastLogIndex, lastLogTerm⟩
  | _ => none

def encodeAER (r : AppendEntriesResponse) : Json :=
  .obj [("term", .num r.term), ("success", .bool r.success)]

def decodeAER : Json → Option AppendEntriesResponse
  | .obj fields => do
      let term ← (lookupField fields "term").bind Json.asNat
      let success ← (lookupField fields "success").bind Json.asBool
      pure ⟨term, success⟩
  | _ => none

def encodeRVR (r : RequestVoteResponse) : Json :=
  .obj [("term", .num r.term), ("voteGranted", .bool r.voteGranted)]

def decodeRVR : Json → Option RequestVoteResponse
  | .obj fields => do
      let term ← (lookupField fields "term").bind Json.asNat
      let voteGranted ← (lookupField fields "voteGranted").bind Json.asBool
      pure ⟨term, voteGranted⟩
  | _ => none

/-! ### Codec roundtrip lemmas -/

theorem decodeBytes_encodeBytes (bs : List Nat) :
    decodeBytes (encodeBytes bs) = some bs := by
  suffices h : decodeNatList (bs.map Json.num) = some bs by
    simpa [encodeBytes, decodeBytes] using h
  induction bs with
  | nil => rfl
  | cons b rest ih => simp [decodeNatList, Json.asNat, ih]

theorem decodeLogEntry_encodeLogEntry (e : LogEntry) :
    decodeLogEntry (encodeLogEntry e) = some e := by
  simp [encodeLogEntry, decodeLogEntry, lookupField, Json.asNat,
    decodeBytes_encodeBytes e.command]

theorem decodeEntries_encodeEntries (es : List LogEntry) :
    decodeEntries (.arr (es.map encodeLogEntry)) = some es := by
  suffices h : decodeEntryList (es.map encodeLogEntry) = some es by
    simpa [decodeEntries] using h
  induction es with
  | nil => rfl
  | cons e rest ih =>
      simp [decodeEntryList, decodeLogEntry_encodeLogEntry e, ih]

/-!
## Transport embedding (`http/http.go`)
-/

/-- An HTTP body: a well-formed JSON document, or bytes that do not form one. -/
inductive Body where
  | json (j : Json)
  | raw (bytes : List Nat)

/-- A `url.URL` as used by the transport: Go copies it by value, so it is a
plain record here. -/
structure URL where
  scheme : String
  host : String
  path : String
deriving DecidableEq

/-- Go `idUrl.String()` / `url.String()`: the address rendered as a string. -/
def URL.render (u : URL) : String := u.scheme ++ "://" ++ u.host ++ u.path

/-- An HTTP response as seen by the client (`*http.Response`). -/
structure HTTPResponse where
  statusCode : Nat
  body : Body

/-- The network oracle: the outcome of each blocking `http.Get` and
`http.Post` the transport issues.  `post` takes the rendered URL, the
content-type argument, and the request body.  `Except.error` is a
network-level failure (connection refused, timeout, DNS failure); Go's
`http.Get`/`http.Post` do NOT fail on a non-2xx status. -/
structure Net where
  get : String → Except Unit HTTPResponse
  post : String → String → Body → Except Unit HTTPResponse

/-- `http.StatusOK`. -/
def statusOK : Nat := 200

/-- Route constants from the top of `http.go`. -/
def IdPath : String := "/raft/id"

def AppendEntriesPath : String := "/raft/appendentries"

def RequestVotePath : String := "/raft/requestvote"

def CommandPath : String := "/raft/command"

/-- The two precomputed empty-reply bodies from `init()`:
`json.Encode(raft.AppendEntriesResponse{})` and
`json.Encode(raft.RequestVoteResponse{})` into package-level buffers. -/
def emptyAppendEntriesResponse : Body := .json (encodeAER AppendEntriesResponse.zero)

/-- See `emptyAppendEntriesResponse`. -/
def emptyRequestVoteResponse : Body := .json (encodeRVR RequestVoteResponse.zero)

/-- The `HTTPPeer` struct: resolved identity and stored base address. -/
structure HTTPPeer where
  id : Nat
  url : URL
deriving DecidableEq

/-- Go `json.NewDecoder(resp.Body).Decode(&id)` for `var id uint64`:
succeeds exactly on a JSON number body. -/
def decodeUint64 : Body → Option Nat
  | .json (.num n) => some n
  | _ => none

/-- `NewHTTPPeer`: strip the path from `u`, `http.Get` the identity endpoint,
decode the body as a `uint64`, and build the peer.  Note the source checks
only the `http.Get` error and the decode error — it never inspects
`resp.StatusCode`. -/
def NewHTTPPeer (net : Net) (u : URL) : Except Unit HTTPPeer :=
  let u' : URL := { u with path := "" }
  let idUrl : URL := { u' with path := IdPath }
  match net.get idUrl.render with
  | .error e => .error e
  | .ok resp =>
      match decodeUint64 resp.body with
      | none => .error ()
      | some id => .ok { id := id, url := u' }

/-- `(p *HTTPPeer) Id()`. -/
def HTTPPeer.Id (p : HTTPPeer) : Nat := p.id

/-- The distinguishable failure kinds of the shared `rpc` primitive
(spec §7: EncodeError, NetworkError, StatusError with code, DecodeError). -/
inductive RpcError where
  | encodeError
  | networkError
  | statusError (code : Nat)
  | decodeError
deriving DecidableEq

/-- The URL `rpc` posts to: a copy of the stored address with the path
overwritten (`url := p.url; url.Path = path`). -/
def rpcTarget (p : HTTPPeer) (path : String) : URL :=
  { p.url with path := path }

/-- The shared `rpc` primitive, generic in the request type `ρ` (encoded by
`encReq`, modelling `json.NewEncoder(body).Encode(request)`) and the response
target type `α` (decoded in place by `dec`, modelling
`json.NewDecoder(resp.Body).Decode(response)`: `dec` receives the body and
the target's current value — `init`, a fresh zero at every call site — and
returns the target's final value with a success flag; see the module header
for the best-effort semantics).  Returns Go's `error` result paired with the
final value of the response target; on the encode, network, and status
failure paths the target retains `init`, while a failed decode leaves
whatever the best-effort unmarshal produced. -/
def rpc {ρ α : Type} (net : Net) (encReq : ρ → Except Unit Body)
    (dec : Body → α → α × Bool) (p : HTTPPeer) (request : ρ) (path : String)
    (init : α) : Except RpcError Unit × α :=
  match encReq request with
  | .error _ => (.error .encodeError, init)
  | .ok body =>
      match net.post (rpcTarget p path).render "application/json" body with
      | .error _ => (.error .networkError, init)
      | .ok resp =>
          if resp.statusCode ≠ statusOK then
            (.error (.statusError resp.statusCode), init)
          else
            match dec resp.body init with
            | (v, true) => (.ok (), v)
            | (v, false) => (.error .decodeError, v)

/-- Encoding a `raft.AppendEntries` request: marshalling a struct of
integers, booleans and byte slices into a fresh buffer never fails in Go. -/
def encReqAE (m : AppendEntries) : Except Unit Body := .ok (.json (encodeAE m))

/-- Encoding a `raft.RequestVote` request; never fails. -/
def encReqRV (m : RequestVote) : Except Unit Body := .ok (.json (encodeRV m))

/-- Codec-level decoding of a reply body into an `AppendEntriesResponse`:
succeeds when the body is a JSON object all of whose expected fields decode.
Used to state that a reply body decodes; the in-place client-side decode
performed by `rpc` is `decodeAERInto`. -/
def decRespAER : Body → Option AppendEntriesResponse
  | .json j => decodeAER j
  | .raw _ => none

/-- Codec-level decoding of a reply body into a `RequestVoteResponse`;
see `decRespAER`. -/
def decRespRVR : Body → Option RequestVoteResponse
  | .json j => decodeRVR j
  | .raw _ => none

/-- Best-effort unmarshalling of a JSON object's fields into an
`AppendEntriesResponse` target, in document order (Go `encoding/json` on a
struct target): a matching key overwrites its field when the value has the
field's type, a `null` value is a no-op, a type-mismatched value is skipped
with the error recorded after the remaining fields are processed, and
unknown keys are ignored. -/
def unmarshalAERFields : List (String × Json) → AppendEntriesResponse →
    AppendEntriesResponse × Bool
  | [], cur => (cur, true)
  | (k, v) :: rest, cur =>
      if k = "term" then
        match v with
        | .null => unmarshalAERFields rest cur
        | .num n => unmarshalAERFields rest { cur with term := n }
        | _ => ((unmarshalAERFields rest cur).1, false)
      else if k = "success" then
        match v with
        | .null => unmarshalAERFields rest cur
        | .bool b => unmarshalAERFields rest { cur with success := b }
        | _ => ((unmarshalAERFields rest cur).1, false)
      else unmarshalAERFields rest cur

/-- Go `json.NewDecoder(resp.Body).Decode(&aer)`: best-effort in-place
decode of a response body into `*raft.AppendEntriesResponse` (module
header): an object is unmarshalled field by field, a top-level `null` is a
no-op success, any other document is a type error and a non-JSON body a
syntax error, both leaving the target unchanged. -/
def decodeAERInto : Body → AppendEntriesResponse → AppendEntriesResponse × Bool
  | .json (.obj fields), cur => unmarshalAERFields fields cur
  | .json .null, cur => (cur, true)
  | _, cur => (cur, false)

/-- Best-effort unmarshalling into a `RequestVoteResponse` target; see
`unmarshalAERFields`. -/
def unmarshalRVRFields : List (String × Json) → RequestVoteResponse →
    RequestVoteResponse × Bool
  | [], cur => (cur, true)
  | (k, v) :: rest, cur =>
      if k = "term" then
        match v with
        | .null => unmarshalRVRFields rest cur
        | .num n => unmarshalRVRFields rest { cur with term := n }
        | _ => ((unmarshalRVRFields rest cur).1, false)
      else if k = "voteGranted" then
        match v with
        | .null => unmarshalRVRFields rest cur
        | .bool b => unmarshalRVRFields rest { cur with voteGranted := b }
        | _ => ((unmarshalRVRFields rest cur).1, false)
      else unmarshalRVRFields rest cur

/-- Best-effort in-place decode of a response body into
`*raft.RequestVoteResponse`; see `decodeAERInto`. -/
def decodeRVRInto : Body → RequestVoteResponse → RequestVoteResponse × Bool
  | .json (.obj fields), cur => unmarshalRVRFields fields cur
  | .json .null, cur => (cur, true)
  | _, cur => (cur, false)

/-- The full `rpc` call made by `AppendEntries` (error and final target). -/
def HTTPPeer.appendEntriesCall (net : Net) (p : HTTPPeer) (ae : AppendEntries) :
    Except RpcError Unit × AppendEntriesResponse :=
  rpc net encReqAE decodeAERInto p ae AppendEntriesPath AppendEntriesResponse.zero

/-- `(p *HTTPPeer) AppendEntries`: declare a zero-valued response, run `rpc`
ignoring its error, return whatever the response target holds. -/
def HTTPPeer.AppendEntries (net : Net) (p : HTTPPeer) (ae : AppendEntries) :
    AppendEntriesResponse :=
  (p.appendEntriesCall net ae).2

/-- The full `rpc` call made by `RequestVote`. -/
def HTTPPeer.requestVoteCall (net : Net) (p : HTTPPeer) (rv : RequestVote) :
    Except RpcError Unit × RequestVoteResponse :=
  rpc net encReqRV decodeRVRInto p rv RequestVotePath RequestVoteResponse.zero

/-- `(p *HTTPPeer) RequestVote`. -/
def HTTPPeer.RequestVote (net : Net) (p : HTTPPeer) (rv : RequestVote) :
    RequestVoteResponse :=
  (p.requestVoteCall net rv).2

/-- Encoding the `[]byte` command for the POST body:
`json.Encode` of a byte slice produces a JSON string (base64 text) and never
fails; the claims depend only on the fact that it is a string and succeeds,
so the text is modelled as the printed byte list. -/
def encReqCmd (cmd : List Nat) : Except Unit Body := .ok (.json (.str (toString cmd)))

/-- Go `json.NewDecoder(resp.Body).Decode(response)` where `response` is a
`*bytes.Buffer`: `bytes.Buffer` has only unexported fields and implements
neither `json.Unmarshaler` nor `encoding.TextUnmarshaler`, so unmarshalling
NEVER writes into the buffer.  The call succeeds only when the body is a
JSON object (whose fields all fail to match an exported field and are
ignored) or JSON `null` (a no-op); any other body is a syntax or type
error.  In every case the buffer still holds its prior contents — for
`Command`, the empty byte sequence. -/
def decodeIntoBuffer : Body → List Nat → List Nat × Bool
  | .json (.obj _), cur => (cur, true)
  | .json .null, cur => (cur, true)
  | _, cur => (cur, false)

/-- The `rpc` call made inside `Command`'s goroutine: the final contents of
`responseBuf` (see `decodeIntoBuffer`: decoding can never fill the buffer). -/
def HTTPPeer.commandCall (net : Net) (p : HTTPPeer) (cmd : List Nat) :
    Except RpcError Unit × List Nat :=
  rpc net encReqCmd decodeIntoBuffer p cmd CommandPath []

/-- What a goroutine does to the reply channel. -/
inductive ChanAction where
  | send (v : List Nat)
  | close
deriving DecidableEq

/-- `(p *HTTPPeer) Command`: launches a goroutine that runs `rpc` into a
fresh `responseBuf` and then sends `responseBuf.Bytes()` on the channel; the
method itself returns `nil` immediately.  Result: the method's return value
paired with the sequence of actions the goroutine performs on the channel. -/
def HTTPPeer.Command (net : Net) (p : HTTPPeer) (cmd : List Nat) :
    Except Unit Unit × List ChanAction :=
  (.ok (), [.send (p.commandCall net cmd).2])

/-!
## Server side
-/

/-- The local consensus engine reference (`*raft.Server`), as the narrow
capability interface the handlers consult: its identity, the two synchronous
consensus calls, and command acceptance (`server.Command(cmd, response)`
returning an error when the engine rejects the submission). -/
structure Engine where
  id : Nat
  appendEntries : AppendEntries → AppendEntriesResponse
  requestVote : RequestVote → RequestVoteResponse
  command : List Nat → Except Unit Unit

/-- What a handler writes back: status code and body.  A body written by
`w.Write` / `Encode(w)` without `WriteHeader` carries the framework-default
status 200; `http.Error(w, msg, code)` carries `code` and `msg`. -/
structure HandlerResult where
  status : Nat
  body : Body

/-- `appendEntriesHandler`: decode the request body into `raft.AppendEntries`
(failure → 400 with the precomputed empty reply), call the engine, encode its
reply to the wire (`writeOk` models whether writing/encoding to `w`
succeeded; failure → 500 with the precomputed empty reply). -/
def appendEntriesHandler (eng : Engine) (reqBody : Body) (writeOk : Bool) :
    HandlerResult :=
  match (match reqBody with | .json j => decodeAE j | .raw _ => none) with
  | none => ⟨400, emptyAppendEntriesResponse⟩
  | some ae =>
      let aer := eng.appendEntries ae
      if writeOk then ⟨statusOK, .json (encodeAER aer)⟩
      else ⟨500, emptyAppendEntriesResponse⟩

/-- `requestVoteHandler`, symmetric to `appendEntriesHandler`. -/
def requestVoteHandler (eng : Engine) (reqBody : Body) (writeOk : Bool) :
    HandlerResult :=
  match (match reqBody with | .json j => decodeRV j | .raw _ => none) with
  | none => ⟨400, emptyRequestVoteResponse⟩
  | some rv =>
      let rvr := eng.requestVote rv
      if writeOk then ⟨statusOK, .json (encodeRVR rvr)⟩
      else ⟨500, emptyRequestVoteResponse⟩

/-- `commandHandler`: read the body (`ioutil.ReadAll`, outcome `readBody`;
failure → 400, empty body), submit to the engine with a fresh single-slot
channel (rejection → 500, empty body), then block on the channel:
`chanRead = some v` models a value arriving (`resp, ok := <-response` with
`ok = true`; the handler writes `v` with implicit status 200) and
`chanRead = none` models the channel closed without a value (→ 500, empty
body). -/
def commandHandler (eng : Engine) (readBody : Except Unit (List Nat))
    (chanRead : Option (List Nat)) : HandlerResult :=
  match readBody with
  | .error _ => ⟨400, .raw []⟩
  | .ok cmd =>
      match eng.command cmd with
      | .error _ => ⟨500, .raw []⟩
      | .ok _ =>
          match chanRead with
          | none => ⟨500, .raw []⟩
          | some resp => ⟨statusOK, .raw resp⟩

/-!
## Helper lemmas about the shared `rpc` primitive
-/

theorem rpc_encode_error {ρ α : Type} (net : Net) (encReq : ρ → Except Unit Body)
    (dec : Body → α → α × Bool) (p : HTTPPeer) (req : ρ) (path : String) (init : α)
    (e : Unit) (h : encReq req = .error e) :
    rpc net encReq dec p req path init = (.error .encodeError, init) := by
  simp [rpc, h]

theorem rpc_net_error {ρ α : Type} (net : Net) (encReq : ρ → Except Unit Body)
    (dec : Body → α → α × Bool) (p : HTTPPeer) (req : ρ) (path : String) (init : α)
    (b : Body) (e : Unit) (hb : encReq req = .ok b)
    (h : net.post (rpcTarget p path).render "application/json" b = .error e) :
    rpc net encReq dec p req path init = (.error .networkError, init) := by
  simp [rpc, hb, h]

theorem rpc_status_error {ρ α : Type} (net : Net) (encReq : ρ → Except Unit Body)
    (dec : Body → α → α × Bool) (p : HTTPPeer) (req : ρ) (path : String) (init : α)
    (b : Body) (resp : HTTPResponse) (hb : encReq req = .ok b)
    (h : net.post (rpcTarget p path).render "application/json" b = .ok resp)
    (hs : resp.statusCode ≠ statusOK) :
    rpc net encReq dec p req path init = (.error (.statusError resp.statusCode), init) := by
  simp [rpc, hb, h, hs]

theorem rpc_decode_error {ρ α : Type} (net : Net) (encReq : ρ → Except Unit Body)
    (dec : Body → α → α × Bool) (p : HTTPPeer) (req : ρ) (path : String) (init : α)
    (b : Body) (resp : HTTPResponse) (v : α) (hb : encReq req = .ok b)
    (h : net.post (rpcTarget p path).render "application/json" b = .ok resp)
    (hs : resp.statusCode = statusOK) (hd : dec resp.body init = (v, false)) :
    rpc net encReq dec p req path init = (.error .decodeError, v) := by
  simp [rpc, hb, h, hs, hd]

theorem rpc_ok {ρ α : Type} (net : Net) (encReq : ρ → Except Unit Body)
    (dec : Body → α → α × Bool) (p : HTTPPeer) (req : ρ) (path : String) (init : α)
    (b : Body) (resp : HTTPResponse) (v : α) (hb : encReq req = .ok b)
    (h : net.post (rpcTarget p path).render "application/json" b = .ok resp)
    (hs : resp.statusCode = statusOK) (hd : dec resp.body init = (v, true)) :
    rpc net encReq dec p req path init = (.ok (), v) := by
  simp [rpc, hb, h, hs, hd]

/-- On the encode, network, and status failure paths of `rpc`, the response
target still holds `init` (a failed decode instead leaves the best-effort
value). -/
theorem rpc_error_init {ρ α : Type} (net : Net) (encReq : ρ → Except Unit Body)
    (dec : Body → α → α × Bool) (p : HTTPPeer) (req : ρ) (path : String) (init : α)
    (e : RpcError) (h : (rpc net encReq dec p req path init).1 = .error e)
    (hne : e ≠ .decodeError) :
    (rpc net encReq dec p req path init).2 = init := by
  unfold rpc at *
  cases hb : encReq req with
  | error e' => simp [hb]
  | ok b =>
      cases hp : net.post (rpcTarget p path).render "application/json" b with
      | error e' => simp [hb, hp]
      | ok resp =>
          by_cases hs : resp.statusCode ≠ statusOK
          · simp [hb, hp, hs]
          · cases hd : dec resp.body init with
            | mk v ok =>
                cases ok with
                | false =>
                    simp [hb, hp, hs, hd] at h
                    exact absurd h.symm hne
                | true => simp [hb, hp, hs, hd] at h

/-- JSON-decoding into a `*bytes.Buffer` never changes the buffer. -/
theorem decodeIntoBuffer_preserves (b : Body) (cur : List Nat) :
    (decodeIntoBuffer b cur).1 = cur := by
  cases b with
  | json j => cases j <;> rfl
  | raw bs => rfl

/-- The response buffer of `Command`'s inner `rpc` call is empty on every
path: it starts empty and decoding never writes into it. -/
theorem commandCall_buffer_empty (net : Net) (p : HTTPPeer) (cmd : List Nat) :
    (p.commandCall net cmd).2 = [] := by
  unfold HTTPPeer.commandCall rpc encReqCmd
  cases hp : net.post (rpcTarget p CommandPath).render "application/json"
      (.json (.str (toString cmd))) with
  | error e => simp [hp]
  | ok resp =>
      by_cases hs : resp.statusCode ≠ statusOK
      · simp [hp, hs]
      · cases hd : decodeIntoBuffer resp.body [] with
        | mk v ok =>
            have hv : v = [] := by
              have hpres := decodeIntoBuffer_preserves resp.body []
              rw [hd] at hpres
              exact hpres
            cases ok <;> simp [hp, hs, hd, hv]

/-!
## Concrete fixtures used by witnesses and counterexamples
-/

/-- A base address carrying a stale path, to exercise path stripping. -/
def u0 : URL := ⟨"http", "peer.example:8080", "/stale"⟩

/-- A concrete append-entries message. -/
def ae0 : AppendEntries := ⟨3, 2, 1, [⟨2, 1, [7, 8]⟩], 2⟩

/-- A concrete request-vote message. -/
def rv0 : RequestVote := ⟨4, 2, 9, 3⟩

/-- A concrete peer with an empty stored path. -/
def p0 : HTTPPeer := ⟨9, ⟨"http", "peer.example:8080", ""⟩⟩

/-- A network whose identity endpoint answers HTTP 500 with body `7`. -/
def netStatus500 : Net := ⟨fun _ => .ok ⟨500, .json (.num 7)⟩, fun _ _ _ => .error ()⟩

/-- A fully unreachable network: every request fails at the network level. -/
def netUnreachable : Net := ⟨fun _ => .error (), fun _ _ _ => .error ()⟩

/-- A network whose identity endpoint answers HTTP 200 with body `0`. -/
def netIdZero : Net := ⟨fun _ => .ok ⟨200, .json (.num 0)⟩, fun _ _ _ => .error ()⟩

/-- A network whose identity endpoint answers HTTP 200 with body `42`. -/
def netId42 : Net := ⟨fun _ => .ok ⟨200, .json (.num 42)⟩, fun _ _ _ => .error ()⟩

/-- A network answering every POST with HTTP 200 and a non-JSON body. -/
def netGarbage200 : Net := ⟨fun _ => .error (), fun _ _ _ => .ok ⟨200, .raw [1]⟩⟩

/-- A network answering every POST with HTTP 200 and the JSON body
`{"term":5,"success":3}`: a well-typed `term` field followed by a
type-mismatched `success` field. -/
def netPartial200 : Net :=
  ⟨fun _ => .error (),
   fun _ _ _ => .ok ⟨200, .json (.obj [("term", .num 5), ("success", .num 3)])⟩⟩

/-- A network answering every POST with HTTP 200 and raw body `"hello"`
(bytes 104,101,108,108,111 — not a valid JSON document). -/
def netHello200 : Net :=
  ⟨fun _ => .error (), fun _ _ _ => .ok ⟨200, .raw [104, 101, 108, 108, 111]⟩⟩

/-!
## Claims
-/

/-- C1 (amended): `NewHTTPPeer` returns an error exactly when the network
request to the identity endpoint errors or the response body fails to decode
as a `PeerIdentity`; it never inspects the HTTP status, so a response with
any status whose body decodes yields a constructed peer. -/
theorem newHTTPPeer_error_discipline (net : Net) (u : URL) :
    (∀ e, net.get (URL.render { u with path := IdPath }) = .error e →
        NewHTTPPeer net u = .error e) ∧
    (∀ resp, net.get (URL.render { u with path := IdPath }) = .ok resp →
        (decodeUint64 resp.body = none → NewHTTPPeer net u = .error ()) ∧
        (∀ id, decodeUint64 resp.body = some id →
            NewHTTPPeer net u = .ok { id := id, url := { u with path := "" } })) := by
  refine ⟨fun e h => by simp [NewHTTPPeer, h], fun resp h => ⟨fun hd => ?_, fun id hd => ?_⟩⟩
  · simp [NewHTTPPeer, h, hd]
  · simp [NewHTTPPeer, h, hd]

/-- C1 witness: against an unreachable identity endpoint, construction
fails with the network error. -/
theorem newHTTPPeer_error_discipline_witness :
    NewHTTPPeer netUnreachable u0 = .error () :=
  (newHTTPPeer_error_discipline netUnreachable u0).1 () rfl

/-- C1 counterexample: the identity endpoint answers with HTTP status 500
(not the success status 200), yet `NewHTTPPeer` returns a constructed peer
with identity 7 and no error — refuting the claim that a non-success status
yields a transport error. -/
theorem newHTTPPeer_ignores_status_counterexample :
    netStatus500.get (URL.render { u0 with path := IdPath }) = .ok ⟨500, .json (.num 7)⟩ ∧
    NewHTTPPeer netStatus500 u0 = .ok ⟨7, ⟨"http", "peer.example:8080", ""⟩⟩ :=
  ⟨rfl, rfl⟩

/-- C5 (amended): no resolution failure path produces a peer — a network
error is propagated, and every constructed peer's identity is exactly the
value decoded from a network-level-successful identity response.  (The code
does not, however, reject a decoded identity of zero.) -/
theorem newHTTPPeer_no_silent_peer (net : Net) (u : URL) :
    (∀ e, net.get (URL.render { u with path := IdPath }) = .error e →
        NewHTTPPeer net u = .error e) ∧
    (∀ p, NewHTTPPeer net u = .ok p →
        ∃ resp, net.get (URL.render { u with path := IdPath }) = .ok resp ∧
          decodeUint64 resp.body = some p.id) := by
  refine ⟨fun e h => by simp [NewHTTPPeer, h], fun p hp => ?_⟩
  cases hg : net.get (URL.render { u with path := IdPath }) with
  | error e => simp [NewHTTPPeer, hg] at hp
  | ok resp =>
      refine ⟨resp, rfl, ?_⟩
      cases hd : decodeUint64 resp.body with
      | none => simp [NewHTTPPeer, hg, hd] at hp
      | some id =>
          simp [NewHTTPPeer, hg, hd] at hp
          subst hp
          rfl

/-- C5 witness: identity resolution against an unreachable address fails
with an error instead of yielding a zero identity. -/
theorem newHTTPPeer_no_silent_peer_witness :
    NewHTTPPeer netUnreachable ⟨"http", "down.example", ""⟩ = .error () :=
  (newHTTPPeer_no_silent_peer netUnreachable ⟨"http", "down.example", ""⟩).1 () rfl

/-- C5 counterexample: a reachable identity endpoint whose body decodes to
`0` makes `NewHTTPPeer` succeed with a resolved identity of zero — refuting
the invariant that a resolved `PeerIdentity` is never zero-valued. -/
theorem newHTTPPeer_zero_identity_counterexample :
    NewHTTPPeer netIdZero u0 = .ok ⟨0, ⟨"http", "peer.example:8080", ""⟩⟩ ∧
    HTTPPeer.Id ⟨0, ⟨"http", "peer.example:8080", ""⟩⟩ = 0 :=
  ⟨rfl, rfl⟩

/-- C3: the shared `rpc` primitive follows exactly this order and failure
discipline: encode (failure → encoding error); POST to the stored address
with the destination path substituted, the fixed content-type
`application/json`, and the encoded payload (network failure → transport
error); a non-success HTTP status → an error carrying the numeric status
code; a response-body decode failure → a decoding error; otherwise success
with the decoded response. -/
theorem rpc_discipline {ρ α : Type} (net : Net) (encReq : ρ → Except Unit Body)
    (dec : Body → α → α × Bool) (p : HTTPPeer) (req : ρ) (path : String) (init : α) :
    (∀ e, encReq req = .error e →
        rpc net encReq dec p req path init = (.error .encodeError, init)) ∧
    (∀ b, encReq req = .ok b →
      (∀ e, net.post (rpcTarget p path).render "application/json" b = .error e →
          rpc net encReq dec p req path init = (.error .networkError, init)) ∧
      (∀ resp, net.post (rpcTarget p path).render "application/json" b = .ok resp →
        (resp.statusCode ≠ statusOK →
            rpc net encReq dec p req path init
              = (.error (.statusError resp.statusCode), init)) ∧
        (resp.statusCode = statusOK →
          (∀ v, dec resp.body init = (v, false) →
              rpc net encReq dec p req path init = (.error .decodeError, v)) ∧
          (∀ v, dec resp.body init = (v, true) →
              rpc net encReq dec p req path init = (.ok (), v))))) := by
  refine ⟨fun e h => rpc_encode_error net encReq dec p req path init e h,
    fun b hb => ⟨fun e h => rpc_net_error net encReq dec p req path init b e hb h,
      fun resp h => ⟨fun hs => rpc_status_error net encReq dec p req path init b resp hb h hs,
        fun hs => ⟨fun v hd => rpc_decode_error net encReq dec p req path init b resp v hb h hs hd,
          fun v hd => rpc_ok net encReq dec p req path init b resp v hb h hs hd⟩⟩⟩⟩

/-- C3 witness: an HTTP 200 response whose body is not a JSON document makes
`rpc` abort with the decoding error, leaving the response target at its
initial value. -/
theorem rpc_discipline_witness :
    rpc netGarbage200 encReqAE decodeAERInto p0 ae0 AppendEntriesPath
      AppendEntriesResponse.zero = (.error .decodeError, AppendEntriesResponse.zero) :=
  ((((rpc_discipline netGarbage200 encReqAE decodeAERInto p0 ae0 AppendEntriesPath
      AppendEntriesResponse.zero).2 (.json (encodeAE ae0)) rfl).2
      ⟨200, .raw [1]⟩ rfl).2 rfl).1 AppendEntriesResponse.zero rfl

/-- C2 counterexample: the server answers the append-entries POST with
HTTP 200 and body `{"term":5,"success":3}`.  The decode fails (the `rpc`
call reports the decoding error), yet `AppendEntries` returns the
best-effort partially-filled reply `⟨5, false⟩`, whose `term` field differs
from the all-default reply `⟨0, false⟩` — refuting the claim that every
transport-level failure yields a reply with all default/zero fields. -/
theorem outbound_partial_fill_counterexample :
    (p0.appendEntriesCall netPartial200 ae0).1 = .error .decodeError ∧
    p0.AppendEntries netPartial200 ae0 = ⟨5, false⟩ ∧
    AppendEntriesResponse.zero = ⟨0, false⟩ :=
  ⟨rfl, rfl, rfl⟩

/-- C2 (amended): the outbound `AppendEntries` and `RequestVote` calls never
surface a transport error to their caller: request encoding never fails, and
on a network failure or a non-success HTTP status they return the
all-default reply; on a response-body decode failure they return the
best-effort partially-filled reply (which need not be all-default); on
success they return the decoded reply. -/
theorem outbound_error_policy (net : Net) (p : HTTPPeer) (ae : AppendEntries)
    (rv : RequestVote) :
    encReqAE ae = .ok (.json (encodeAE ae)) ∧
    (∀ e, net.post (rpcTarget p AppendEntriesPath).render "application/json"
          (.json (encodeAE ae)) = .error e →
        p.AppendEntries net ae = AppendEntriesResponse.zero) ∧
    (∀ resp, net.post (rpcTarget p AppendEntriesPath).render "application/json"
          (.json (encodeAE ae)) = .ok resp →
        resp.statusCode ≠ statusOK →
        p.AppendEntries net ae = AppendEntriesResponse.zero) ∧
    (∀ resp v ok, net.post (rpcTarget p AppendEntriesPath).render "application/json"
          (.json (encodeAE ae)) = .ok resp →
        resp.statusCode = statusOK →
        decodeAERInto resp.body AppendEntriesResponse.zero = (v, ok) →
        p.AppendEntries net ae = v) ∧
    encReqRV rv = .ok (.json (encodeRV rv)) ∧
    (∀ e, net.post (rpcTarget p RequestVotePath).render "application/json"
          (.json (encodeRV rv)) = .error e →
        p.RequestVote net rv = RequestVoteResponse.zero) ∧
    (∀ resp, net.post (rpcTarget p RequestVotePath).render "application/json"
          (.json (encodeRV rv)) = .ok resp →
        resp.statusCode ≠ statusOK →
        p.RequestVote net rv = RequestVoteResponse.zero) ∧
    (∀ resp v ok, net.post (rpcTarget p RequestVotePath).render "application/json"
          (.json (encodeRV rv)) = .ok resp →
        resp.statusCode = statusOK →
        decodeRVRInto resp.body RequestVoteResponse.zero = (v, ok) →
        p.RequestVote net rv = v) := by
  refine ⟨rfl, fun e h => ?_, fun resp h hs => ?_, fun resp v ok h hs hd => ?_,
    rfl, fun e h => ?_, fun resp h hs => ?_, fun resp v ok h hs hd => ?_⟩
  · exact congrArg Prod.snd
      (rpc_net_error net encReqAE decodeAERInto p ae AppendEntriesPath
        AppendEntriesResponse.zero (.json (encodeAE ae)) e rfl h)
  · exact congrArg Prod.snd
      (rpc_status_error net encReqAE decodeAERInto p ae AppendEntriesPath
        AppendEntriesResponse.zero (.json (encodeAE ae)) resp rfl h hs)
  · cases ok with
    | false =>
        exact congrArg Prod.snd
          (rpc_decode_error net encReqAE decodeAERInto p ae AppendEntriesPath
            AppendEntriesResponse.zero (.json (encodeAE ae)) resp v rfl h hs hd)
    | true =>
        exact congrArg Prod.snd
          (rpc_ok net encReqAE decodeAERInto p ae AppendEntriesPath
            AppendEntriesResponse.zero (.json (encodeAE ae)) resp v rfl h hs hd)
  · exact congrArg Prod.snd
      (rpc_net_error net encReqRV decodeRVRInto p rv RequestVotePath
        RequestVoteResponse.zero (.json (encodeRV rv)) e rfl h)
  · exact congrArg Prod.snd
      (rpc_status_error net encReqRV decodeRVRInto p rv RequestVotePath
        RequestVoteResponse.zero (.json (encodeRV rv)) resp rfl h hs)
  · cases ok with
    | false =>
        exact congrArg Prod.snd
          (rpc_decode_error net encReqRV decodeRVRInto p rv RequestVotePath
            RequestVoteResponse.zero (.json (encodeRV rv)) resp v rfl h hs hd)
    | true =>
        exact congrArg Prod.snd
          (rpc_ok net encReqRV decodeRVRInto p rv RequestVotePath
            RequestVoteResponse.zero (.json (encodeRV rv)) resp v rfl h hs hd)

/-- C2 witness: against an unreachable network, both outbound consensus
calls return the all-default reply instead of an error. -/
theorem outbound_error_policy_witness :
    p0.AppendEntries netUnreachable ae0 = AppendEntriesResponse.zero ∧
    p0.RequestVote netUnreachable rv0 = RequestVoteResponse.zero :=
  ⟨(outbound_error_policy netUnreachable p0 ae0 rv0).2.1 () rfl,
   (outbound_error_policy netUnreachable p0 ae0 rv0).2.2.2.2.2.1 () rfl⟩

/-- An engine that accepts every command (used by witnesses). -/
def engAccepts : Engine :=
  ⟨1, fun _ => AppendEntriesResponse.zero, fun _ => RequestVoteResponse.zero,
   fun _ => .ok ()⟩

/-- C4: the inbound command handler responds 400 with an empty body when
reading the request body fails, 500 with an empty body when the engine
rejects the submission, 200 with exactly the received byte sequence when a
value arrives on the single-slot reply channel, and 500 with an empty body
when the channel is closed without a value. -/
theorem commandHandler_discipline (eng : Engine) (readBody : Except Unit (List Nat))
    (chanRead : Option (List Nat)) :
    (∀ e, readBody = .error e →
        commandHandler eng readBody chanRead = ⟨400, .raw []⟩) ∧
    (∀ cmd, readBody = .ok cmd →
      (∀ e, eng.command cmd = .error e →
          commandHandler eng readBody chanRead = ⟨500, .raw []⟩) ∧
      (eng.command cmd = .ok () →
        (chanRead = none → commandHandler eng readBody chanRead = ⟨500, .raw []⟩) ∧
        (∀ v, chanRead = some v →
            commandHandler eng readBody chanRead = ⟨statusOK, .raw v⟩))) := by
  refine ⟨fun e h => by simp [commandHandler, h],
    fun cmd h => ⟨fun e hc => by simp [commandHandler, h, hc],
      fun hc => ⟨fun hr => by simp [commandHandler, h, hc, hr],
        fun v hr => by simp [commandHandler, h, hc, hr]⟩⟩⟩

/-- C4 witness: for an accepted command whose reply channel delivers the
bytes `[9, 8]`, the handler answers 200 with exactly those bytes; and at a
failed body read, 400 with an empty body. -/
theorem commandHandler_discipline_witness :
    commandHandler engAccepts (.ok [1, 2]) (some [9, 8]) = ⟨statusOK, .raw [9, 8]⟩ ∧
    commandHandler engAccepts (.error ()) (some [9, 8]) = ⟨400, .raw []⟩ :=
  ⟨(((commandHandler_discipline engAccepts (.ok [1, 2]) (some [9, 8])).2
      [1, 2] rfl).2 rfl).2 [9, 8] rfl,
   (commandHandler_discipline engAccepts (.error ()) (some [9, 8])).1 () rfl⟩

/-- C6: evaluation of `Command` at the failing input.  The server answers the
command POST with HTTP 200 and the raw reply bytes `"hello"`
(`[104, 101, 108, 108, 111]`, not a JSON document); `Command` returns
immediately with no error, but the goroutine sends the EMPTY byte sequence
into the channel: `rpc` JSON-decodes the response into a `*bytes.Buffer`,
which can never receive the body bytes (`decodeIntoBuffer`), so the raw
reply bytes are not delivered verbatim as the claim requires. -/
theorem command_never_delivers_reply_bytes :
    HTTPPeer.Command netHello200 p0 [42] = (.ok (), [.send []]) ∧
    (p0.commandCall netHello200 [42]).1 = .error .decodeError :=
  ⟨rfl, rfl⟩

/-- C7: the two precomputed empty-reply encodings each decode successfully
into the all-default reply of their RPC kind, and a malformed body POSTed to
the request-vote route yields HTTP 400 whose body is the precomputed
encoding and itself decodes into the all-default `RequestVoteResponse`. -/
theorem empty_replies_decode (eng : Engine) (writeOk : Bool) :
    decRespAER emptyAppendEntriesResponse = some AppendEntriesResponse.zero ∧
    decRespRVR emptyRequestVoteResponse = some RequestVoteResponse.zero ∧
    requestVoteHandler eng (.raw [0]) writeOk = ⟨400, emptyRequestVoteResponse⟩ ∧
    decRespRVR (requestVoteHandler eng (.raw [0]) writeOk).body
      = some RequestVoteResponse.zero :=
  ⟨rfl, rfl, rfl, rfl⟩

/-- C8: the wire codec round-trips — decoding the encoding of any
append-entries or request-vote message reproduces every field. -/
theorem codec_roundtrip (m : AppendEntries) (rv : RequestVote) :
    decodeAE (encodeAE m) = some m ∧ decodeRV (encodeRV rv) = some rv := by
  constructor
  · obtain ⟨t, pli, plt, es, ci⟩ := m
    simp [encodeAE, decodeAE, lookupField, Json.asNat, decodeEntries_encodeEntries]
  · obtain ⟨t, c, li, lt⟩ := rv
    simp [encodeRV, decodeRV, lookupField, Json.asNat]

/-- C9: a successfully constructed peer stores a base address with an empty
path, and the URL every `rpc` call POSTs to carries exactly the call's own
path over the stored scheme and host — it depends only on the scheme and
host, never on the path stored at construction or left by a prior call. -/
theorem path_always_overwritten (net : Net) (u : URL) (p q : HTTPPeer)
    (path : String) :
    (∀ p', NewHTTPPeer net u = .ok p' → p'.url.path = "") ∧
    (rpcTarget p path).path = path ∧
    (rpcTarget p path).scheme = p.url.scheme ∧
    (rpcTarget p path).host = p.url.host ∧
    (p.url.scheme = q.url.scheme → p.url.host = q.url.host →
        rpcTarget p path = rpcTarget q path) := by
  refine ⟨fun p' hp => ?_, rfl, rfl, rfl, fun hs hh => ?_⟩
  · cases hg : net.get (URL.render { u with path := IdPath }) with
    | error e => simp [NewHTTPPeer, hg] at hp
    | ok resp =>
        cases hd : decodeUint64 resp.body with
        | none => simp [NewHTTPPeer, hg, hd] at hp
        | some id =>
            simp [NewHTTPPeer, hg, hd] at hp
            subst hp
            rfl
  · simp only [rpcTarget, hs, hh]

/-- C9 witness: a peer constructed against a base address carrying a stale
path stores the path-stripped address; and two peers differing only in their
stored paths POST any given RPC to the identical URL. -/
theorem path_always_overwritten_witness :
    (HTTPPeer.url ⟨42, ⟨"http", "peer.example:8080", ""⟩⟩).path = "" ∧
    rpcTarget ⟨1, ⟨"http", "h", "/a"⟩⟩ CommandPath
      = rpcTarget ⟨2, ⟨"http", "h", "/b"⟩⟩ CommandPath :=
  ⟨(path_always_overwritten netId42 u0 p0 p0 CommandPath).1
      ⟨42, ⟨"http", "peer.example:8080", ""⟩⟩ rfl,
   (path_always_overwritten netId42 u0 ⟨1, ⟨"http", "h", "/a"⟩⟩
      ⟨2, ⟨"http", "h", "/b"⟩⟩ CommandPath).2.2.2.2 rfl rfl⟩

/-- C10: the goroutine launched by `Command` performs exactly one action on
the reply channel — a single send of the final contents of its response
buffer — and never closes it; the method itself reports no error, and when
the underlying `rpc` fails the sent value is the (empty) buffer contents
rather than a close. -/
theorem command_goroutine_channel (net : Net) (p : HTTPPeer) (cmd : List Nat) :
    (HTTPPeer.Command net p cmd).1 = .ok () ∧
    (HTTPPeer.Command net p cmd).2 = [.send (p.commandCall net cmd).2] ∧
    (∀ e, (p.commandCall net cmd).1 = .error e →
        (HTTPPeer.Command net p cmd).2 = [.send []]) ∧
    ChanAction.close ∉ (HTTPPeer.Command net p cmd).2 := by
  refine ⟨rfl, rfl, fun e h => ?_, ?_⟩
  · simp [HTTPPeer.Command, commandCall_buffer_empty net p cmd]
  · simp [HTTPPeer.Command]

/-- C10 witness: against an unreachable network, `Command` reports no error
and the goroutine's only channel action is a single send of the empty
buffer contents; it never closes the channel. -/
theorem command_goroutine_channel_witness :
    (HTTPPeer.Command netUnreachable p0 [42]).1 = .ok () ∧
    (HTTPPeer.Command netUnreachable p0 [42]).2 = [.send []] ∧
    ChanAction.close ∉ (HTTPPeer.Command netUnreachable p0 [42]).2 :=
  ⟨(command_goroutine_channel netUnreachable p0 [42]).1,
   (command_goroutine_channel netUnreachable p0 [42]).2.2.1 .networkError rfl,
   (command_goroutine_channel netUnreachable p0 [42]).2.2.2⟩

end RaftHttp
